import Mathlib

/-!
Shallow embedding of the file-storage service in `app/routes.py` (with the
configuration constants from `app/__init__.py`), together with proofs of the
behavioural properties of its metadata store and upload pipeline.

Modelling conventions:
* byte streams are `List Nat`;
* the external content-type detector (`python-magic`) is a parameter
  `detect : List Nat → Except Unit String` (`Except.error` models the
  detector raising);
* the external sanitizer (werkzeug's `secure_filename`) and the float-based
  `format_file_size` pretty-printer are opaque `String`-valued parameters;
* fresh randomness (`uuid.uuid4()`) and the clock (`datetime.now()`) are
  supplied by an oracle indexed by the position of the file in the batch;
* the filesystem is an association list from paths to byte streams;
* the persisted JSON document is `Option (Except Unit JValue)`:
  `none` = file absent, `some (Except.error ())` = present but unparsable,
  `some (Except.ok v)` = parses to the JSON value `v`.  The JSON text codec
  of the standard library is value-faithful, so the document is modelled at
  the value level.
-/

set_option maxHeartbeats 1000000

namespace Chatbot

/-- One entry of the multipart batch `request.files.getlist('uploaded_files')`:
a claimed filename and the raw byte stream. -/
structure UploadedFile where
  filename : String
  content : List Nat
deriving DecidableEq

/-- The metadata dictionary built at routes.py lines 142-152. -/
structure FileRecord where
  id : String
  original_name : String
  stored_name : String
  stored_path : String
  file_type : String
  file_size : Nat
  formatted_size : String
  upload_date : String
  file_extension : String
deriving DecidableEq

/-- `app.config['ALLOWED_EXTENSIONS'] = {'pdf', 'xlsx', 'xls', 'docx'}`
(a Python set, modelled as the list of its elements). -/
def ALLOWED_EXTENSIONS : List String := ["pdf", "xlsx", "xls", "docx"]

/-- Python `str.lower()` on one character (filenames and extensions here are
ASCII; the comparisons in the routes are against ASCII literals). -/
def lowerChar (c : Char) : Char :=
  if 'A' ≤ c ∧ c ≤ 'Z' then Char.ofNat (c.toNat + 32) else c

/-- Python `str.lower()`. -/
def lowerStr (s : String) : String := ⟨s.data.map lowerChar⟩

/-- The characters after the last `'.'`, or `none` when there is no `'.'`. -/
def afterLastDot : List Char → Option (List Char)
  | [] => none
  | c :: rest =>
    match afterLastDot rest with
    | some s => some s
    | none => if c = '.' then some rest else none

/-- Python `filename.rsplit('.', 1)[1]`: the text after the last dot.
`none` models the `IndexError` raised when the filename has no dot
(`rsplit` then returns a single-element list). -/
def lastExt (filename : String) : Option String :=
  (afterLastDot filename.data).map (fun cs => ⟨cs⟩)

/-- routes.py lines 14-17: `'.' in filename and filename.rsplit('.', 1)[1].lower()
in current_app.config['ALLOWED_EXTENSIONS']`. -/
def allowed_file (filename : String) : Bool :=
  match lastExt filename with
  | some e => decide (lowerStr e ∈ ALLOWED_EXTENSIONS)
  | none => false

/-- The `if`/`elif` chain of `get_file_type` (routes.py lines 22-29), applied to
the already-extracted extension. -/
def fileTypeOfExt (e : String) : String :=
  let ext := lowerStr e
  if ext = "pdf" then "pdf"
  else if ext = "xlsx" ∨ ext = "xls" then "excel"
  else if ext = "docx" then "docx"
  else "unknown"

/-- routes.py lines 20-29.  `none` models the `IndexError` on a filename
without a dot (the function is only called after `allowed_file` passes). -/
def get_file_type (filename : String) : Option String :=
  (lastExt filename).map fileTypeOfExt

/-- The `expected_mimes` dictionary of `validate_file_content`
(routes.py lines 70-75), with `.get(expected_type, [])` semantics. -/
def expected_mimes (t : String) : List String :=
  if t = "pdf" then ["application/pdf"]
  else if t = "excel" then
    ["application/vnd.openxmlformats-officedocument.spreadsheetml.sheet",
     "application/vnd.ms-excel"]
  else if t = "docx" then
    ["application/vnd.openxmlformats-officedocument.wordprocessingml.document"]
  else []

/-- routes.py lines 64-80.  `magic.from_file` is modelled by `detect` applied to
the bytes that were just written at `file_path`; the bare `except` that returns
`True` is the `Except.error` branch. -/
def validate_file_content (detect : List Nat → Except Unit String)
    (content : List Nat) (expectedType : String) : Bool :=
  match detect content with
  | Except.error _ => true
  | Except.ok m => decide (m ∈ expected_mimes expectedType)

/-! ### The persisted JSON document -/

/-- JSON values, restricted to the constructors the metadata document uses. -/
inductive JValue where
  | str (s : String)
  | num (n : Nat)
  | arr (elems : List JValue)
  | obj (fields : List (String × JValue))

/-- The empty store `{'files': []}`. -/
def emptyMetadata : JValue := JValue.obj [("files", JValue.arr [])]

/-- routes.py lines 44-53: if the document exists, parse it, returning
`{'files': []}` on a parse failure; if it does not exist, return `{'files': []}`.
The function is total: no error escapes to the caller. -/
def load_files_metadata (doc : Option (Except Unit JValue)) : JValue :=
  match doc with
  | none => emptyMetadata
  | some (Except.error _) => emptyMetadata
  | some (Except.ok v) => v

/-- JSON serialization of one record dictionary (the shape built at
routes.py lines 142-152, as `json.dump` writes it). -/
def encodeRecord (r : FileRecord) : JValue :=
  JValue.obj
    [("id", JValue.str r.id),
     ("original_name", JValue.str r.original_name),
     ("stored_name", JValue.str r.stored_name),
     ("stored_path", JValue.str r.stored_path),
     ("file_type", JValue.str r.file_type),
     ("file_size", JValue.num r.file_size),
     ("formatted_size", JValue.str r.formatted_size),
     ("upload_date", JValue.str r.upload_date),
     ("file_extension", JValue.str r.file_extension)]

/-- routes.py lines 56-61: overwrite the document with the serialized store
`{'files': [...]}`; after a save the document exists and parses. -/
def save_files_metadata (records : List FileRecord) : Option (Except Unit JValue) :=
  some (Except.ok (JValue.obj [("files", JValue.arr (records.map encodeRecord))]))

/-- Python dictionary lookup on a parsed JSON object. -/
def jLookup (fields : List (String × JValue)) (key : String) : Option JValue :=
  match fields with
  | [] => none
  | (k, v) :: rest => if k = key then some v else jLookup rest key

/-- Read a JSON string, as the routes read record fields. -/
def asStr : JValue → Option String
  | JValue.str s => some s
  | _ => none

/-- Read a JSON number, as the routes read `file_size`. -/
def asNum : JValue → Option Nat
  | JValue.num n => some n
  | _ => none

/-- Reconstruct one record from its parsed dictionary, reading each of the nine
fields exactly as the route handlers access them (`file_info['id']`,
`file_info['stored_name']`, `x.get('upload_date')`, ...). -/
def decodeRecord (v : JValue) : Option FileRecord :=
  match v with
  | JValue.obj fields => do
    let i ← jLookup fields "id" >>= asStr
    let onm ← jLookup fields "original_name" >>= asStr
    let snm ← jLookup fields "stored_name" >>= asStr
    let spath ← jLookup fields "stored_path" >>= asStr
    let ftype ← jLookup fields "file_type" >>= asStr
    let fsize ← jLookup fields "file_size" >>= asNum
    let fmt ← jLookup fields "formatted_size" >>= asStr
    let udate ← jLookup fields "upload_date" >>= asStr
    let fext ← jLookup fields "file_extension" >>= asStr
    pure ⟨i, onm, snm, spath, ftype, fsize, fmt, udate, fext⟩
  | _ => none

/-- Read the whole store back from a parsed document: the `metadata['files']`
list with each record's fields. -/
def decodeStore (v : JValue) : Option (List FileRecord) :=
  match v with
  | JValue.obj fields =>
    match jLookup fields "files" with
    | some (JValue.arr elems) => elems.mapM decodeRecord
    | _ => none
  | _ => none

/-! ### Filesystem model -/

/-- The upload directory tree: an association list from paths to byte streams. -/
abbrev FS := List (String × List Nat)

/-- `file.save(file_path)`: (over)write the blob at `path`. -/
def fsWrite (fs : FS) (path : String) (content : List Nat) : FS :=
  (path, content) :: fs.filter (fun e => !(e.1 == path))

/-- `os.remove(path)` (in the routes always guarded by, or directly after, a
write, so the path exists). -/
def fsRemove (fs : FS) (path : String) : FS :=
  fs.filter (fun e => !(e.1 == path))

/-- `os.path.exists` / reading the blob at `path`. -/
def fsLookup (fs : FS) (path : String) : Option (List Nat) :=
  (fs.find? (fun e => e.1 == path)).map (·.2)

/-! ### The upload pipeline -/

/-- The per-file randomness and clock reading: `uuid.uuid4().hex[:8]`
(line 122), `str(uuid.uuid4())` (line 143) and
`datetime.now().strftime('%Y-%m-%d %H:%M:%S')` (line 150). -/
structure Entropy where
  hex8 : String
  uuidStr : String
  now : String
deriving DecidableEq

/-- The external collaborators and configuration of the pipeline:
werkzeug's `secure_filename`, the `python-magic` detector,
`app.config['UPLOAD_FOLDER']`, and the float-based `format_file_size`
pretty-printer (routes.py lines 32-41), abstracted as an opaque function
because its semantics is floating point. -/
structure Env where
  sanitize : String → String
  detect : List Nat → Except Unit String
  uploadFolder : String
  fmtSize : Nat → String

/-- `os.path.join(os.path.join(UPLOAD_FOLDER, file_type), unique_filename)`
(routes.py lines 125 and 129). -/
def storedPath (env : Env) (ftype uniqueName : String) : String :=
  env.uploadFolder ++ "/" ++ ftype ++ "/" ++ uniqueName

/-- The in-flight state of one POST /upload request: the in-memory
`metadata['files']` list, the disk, `uploaded_count` and `upload_errors`. -/
structure BatchState where
  files : List FileRecord
  fs : FS
  uploaded_count : Nat
  upload_errors : List String
deriving DecidableEq

/-- The metadata dictionary literal at routes.py lines 142-152. -/
def mkRecord (env : Env) (e : Entropy) (f : UploadedFile)
    (ftype ext uniqueName path : String) (size : Nat) : FileRecord :=
  { id := e.uuidStr
    original_name := f.filename
    stored_name := uniqueName
    stored_path := path
    file_type := ftype
    file_size := size
    formatted_size := env.fmtSize size
    upload_date := e.now
    file_extension := ext }

/-- One iteration of the upload loop (routes.py lines 108-160).
The `lastExt _ = none` branch is the per-file `except` at lines 158-160
catching the `IndexError` from `rsplit` (unreachable once `allowed_file`
passed, see `get_file_type_of_allowed`); `magic.from_file(file_path)` reads
back exactly the bytes written at line 130, so the detector is applied to
`f.content`. -/
def processOne (env : Env) (st : BatchState) (fe : UploadedFile × Entropy) :
    BatchState :=
  let f := fe.1
  let e := fe.2
  if f.filename = "" then st
  else if ¬ allowed_file f.filename then
    { st with upload_errors := st.upload_errors ++ [f.filename ++ ": Invalid file type"] }
  else
    match lastExt f.filename with
    | none =>
      { st with upload_errors := st.upload_errors ++ [f.filename ++ ": list index out of range"] }
    | some rawExt =>
      let ftype := fileTypeOfExt rawExt
      let ext := lowerStr rawExt
      let uniqueName := e.hex8 ++ "_" ++ env.sanitize f.filename
      let path := storedPath env ftype uniqueName
      let fs1 := fsWrite st.fs path f.content
      let size := f.content.length
      if ¬ validate_file_content env.detect f.content ftype then
        { st with
            fs := fsRemove fs1 path
            upload_errors := st.upload_errors ++ [f.filename ++ ": File content doesn't match extension"] }
      else
        { st with
            fs := fs1
            files := st.files ++ [mkRecord env e f ftype ext uniqueName path size]
            uploaded_count := st.uploaded_count + 1 }

/-- The `for file in uploaded_files` loop, each file paired with its fresh
randomness. -/
def uploadLoop (env : Env) (oracle : Nat → Entropy) (batch : List UploadedFile)
    (store : List FileRecord) (fs0 : FS) : BatchState :=
  (batch.zip ((List.range batch.length).map oracle)).foldl (processOne env)
    ⟨store, fs0, 0, []⟩

/-- The JSON bodies returned by POST /upload: `success` carries `message`,
`uploaded_count` and `errors`; `failure` carries `message`, the optional
`errors` key, and the HTTP status code. -/
inductive UploadResponse where
  | success (message : String) (uploaded_count : Nat) (errors : List String)
  | failure (message : String) (errors : Option (List String)) (httpCode : Nat)
deriving DecidableEq

/-- Outcome of one POST /upload request: the response, the in-memory store and
disk afterwards, and how many times `save_files_metadata` ran. -/
structure UploadResult where
  response : UploadResponse
  files : List FileRecord
  fs : FS
  saveCount : Nat

/-- POST /upload (routes.py lines 92-189): the initial
`not uploaded_files or uploaded_files[0].filename == ''` guard, the per-file
loop, the single batch save when `uploaded_count > 0`, and the response. -/
def upload (env : Env) (oracle : Nat → Entropy) (batch : List UploadedFile)
    (store : List FileRecord) (fs0 : FS) : UploadResult :=
  if batch = [] ∨ (batch.head?.map (·.filename)) = some "" then
    ⟨UploadResponse.failure "No files selected" none 400, store, fs0, 0⟩
  else
    let final := uploadLoop env oracle batch store fs0
    let saves := if 0 < final.uploaded_count then 1 else 0
    if 0 < final.uploaded_count then
      let message := "Successfully uploaded " ++ toString final.uploaded_count ++ " file(s)"
      let message :=
        if final.upload_errors ≠ [] then
          message ++ ". " ++ toString final.upload_errors.length ++ " file(s) failed."
        else message
      ⟨UploadResponse.success message final.uploaded_count final.upload_errors,
       final.files, final.fs, saves⟩
    else
      ⟨UploadResponse.failure "No files were uploaded successfully"
        (some final.upload_errors) 400, final.files, final.fs, saves⟩

/-- A sequence of POST /upload requests, each with its own batch and its own
fresh randomness, threading the persisted store and the disk. -/
def runUploads (env : Env) :
    List (List UploadedFile × (Nat → Entropy)) → List FileRecord → FS →
    List FileRecord × FS
  | [], store, fs0 => (store, fs0)
  | (batch, oracle) :: rest, store, fs0 =>
    let r := upload env oracle batch store fs0
    runUploads env rest r.files r.fs

/-- The fresh randomness a batch consumes. -/
def entsUsed (batch : List UploadedFile) (oracle : Nat → Entropy) : List Entropy :=
  (List.range batch.length).map oracle

/-- All randomness consumed by a sequence of upload requests. -/
def allEnts (runs : List (List UploadedFile × (Nat → Entropy))) : List Entropy :=
  runs.flatMap (fun br => entsUsed br.1 br.2)

/-! ### GET /files and DELETE /delete -/

/-- routes.py lines 195-210: `files_list.sort(key=lambda x:
x.get('upload_date', ''), reverse=True)` — CPython's stable sort, so the
result is the stable descending merge sort by `upload_date`. -/
def files (store : List FileRecord) : List FileRecord :=
  store.mergeSort (fun a b => decide (b.upload_date ≤ a.upload_date))

/-- The `for i, file_info in enumerate(files_list)` lookup-and-pop of
routes.py lines 264-269: remove the first record with the given id. -/
def removeFirstById : List FileRecord → String → Option (FileRecord × List FileRecord)
  | [], _ => none
  | r :: rs, fid =>
    if r.id = fid then some (r, rs)
    else (removeFirstById rs fid).map (fun p => (p.1, r :: p.2))

/-- Outcome of one DELETE /delete/<id> request: the JSON `status` and
`message`, the HTTP code, the store and disk afterwards, and how many times
`save_files_metadata` ran. -/
structure DeleteResult where
  status : String
  message : String
  httpCode : Nat
  files : List FileRecord
  fs : FS
  saveCount : Nat
deriving DecidableEq

/-- DELETE /delete/<id> (routes.py lines 255-287): pop the record by id
(404 when absent), remove the blob if present (`fsRemove` is the identity on
an absent path, matching the `os.path.exists` guard), save, report success. -/
def delete_file (fid : String) (store : List FileRecord) (fs0 : FS) : DeleteResult :=
  match removeFirstById store fid with
  | none => ⟨"error", "File not found", 404, store, fs0, 0⟩
  | some (t, rest) =>
    ⟨"success", "File '" ++ t.original_name ++ "' deleted successfully", 200,
     rest, fsRemove fs0 t.stored_path, 1⟩

/-- Shared concrete environment for witnesses: identity sanitizer, a detector
that sniffs `[80]` as PDF, `[84]` as plain text, and errors on anything else. -/
def envW : Env :=
  ⟨fun s => s,
   fun c =>
     if c = [80] then Except.ok "application/pdf"
     else if c = [84] then Except.ok "text/plain"
     else Except.error (),
   "uploads", fun n => toString n⟩

/-- Shared concrete per-file randomness for witnesses. -/
def entW : Entropy := ⟨"abcd1234", "uuid-one", "2024-01-01 10:00:00"⟩

/-- The record the witness batch creates from `a.pdf`. -/
def recA : FileRecord :=
  ⟨"uuid-one", "a.pdf", "abcd1234_a.pdf", "uploads/pdf/abcd1234_a.pdf", "pdf",
   1, "1", "2024-01-01 10:00:00", "pdf"⟩

/-- Shared concrete randomness oracle for whole-batch witnesses. -/
def oracleW : Nat → Entropy :=
  fun n => ⟨"hex8num" ++ toString n, "uuid-num-" ++ toString n, "2024-01-01 10:00:00"⟩

/-- A concrete stored record for witnesses. -/
def recW : FileRecord :=
  ⟨"uuid-one", "report.pdf", "abcd1234_report.pdf",
   "uploads/pdf/abcd1234_report.pdf", "pdf", 1, "1 B", "2024-01-01 10:00:00", "pdf"⟩

/-- All files of a request sequence, paired with their consumed randomness. -/
def allZipPairs (runs : List (List UploadedFile × (Nat → Entropy))) :
    List (UploadedFile × Entropy) :=
  runs.flatMap (fun br => br.1.zip (entsUsed br.1 br.2))

/-- A fixed-width randomness oracle for the C7 witness. -/
def oracle8 : Nat → Entropy :=
  fun n =>
    ⟨if n = 0 then "aaaaaaaa" else "bbbbbbbb",
     if n = 0 then "uuid-a" else "uuid-b",
     "2024-01-01 10:00:00"⟩

/-! ### Supporting lemmas -/

/-- Decoding inverts encoding on every record, field for field. -/
lemma decodeRecord_encodeRecord (r : FileRecord) :
    decodeRecord (encodeRecord r) = some r := by
  cases r
  rfl

lemma mapM_decode_encode (records : List FileRecord) :
    (records.map encodeRecord).mapM decodeRecord = some records := by
  induction records with
  | nil => rfl
  | cons r rs ih =>
    rw [List.map_cons, List.mapM_cons, decodeRecord_encodeRecord, ih]
    rfl

/-! ### C1: fail-soft load -/

/-- C1: for every state of the persisted metadata document, if the document is
absent or unparsable then `load_files_metadata` returns the empty store
`{'files': []}`; being a total function into `JValue`, it propagates no parse
error to its caller. -/
theorem load_fail_soft (doc : Option (Except Unit JValue))
    (h : doc = none ∨ doc = some (Except.error ())) :
    load_files_metadata doc = emptyMetadata := by
  rcases h with h | h <;> subst h <;> rfl

/-- Witness for C1: the absent document loads as the empty store. -/
theorem load_fail_soft_witness :
    load_files_metadata none = emptyMetadata :=
  load_fail_soft none (Or.inl rfl)

/-! ### C9: save/load round-trip -/

/-- C9: for every store, saving it to the persisted document and loading the
document back reproduces a store whose records are field-for-field equal to
the originals. -/
theorem store_roundtrip (records : List FileRecord) :
    decodeStore (load_files_metadata (save_files_metadata records)) = some records := by
  simp only [save_files_metadata, load_files_metadata, decodeStore, jLookup,
    if_pos]
  exact mapM_decode_encode records

/-! ### Structure of one upload-loop iteration -/

/-- An allowed extension maps to one of the three categories. -/
lemma fileTypeOfExt_of_allowed {e : String}
    (h : lowerStr e ∈ ALLOWED_EXTENSIONS) :
    fileTypeOfExt e = "pdf" ∨ fileTypeOfExt e = "excel" ∨ fileTypeOfExt e = "docx" := by
  simp only [ALLOWED_EXTENSIONS, List.mem_cons, List.mem_singleton,
    List.not_mem_nil, or_false] at h
  unfold fileTypeOfExt
  rcases h with h | h | h | h <;> rw [h] <;> simp

/-- A filename passing `allowed_file` has an extension, and that extension is
allowed and categorized. -/
lemma get_file_type_of_allowed {fn : String} (h : allowed_file fn = true) :
    ∃ e, lastExt fn = some e ∧ lowerStr e ∈ ALLOWED_EXTENSIONS ∧
      (fileTypeOfExt e = "pdf" ∨ fileTypeOfExt e = "excel" ∨ fileTypeOfExt e = "docx") := by
  unfold allowed_file at h
  cases hle : lastExt fn with
  | none => rw [hle] at h; exact absurd h (by simp)
  | some e =>
    rw [hle] at h
    have he : lowerStr e ∈ ALLOWED_EXTENSIONS := of_decide_eq_true h
    exact ⟨e, rfl, he, fileTypeOfExt_of_allowed he⟩

/-- Each iteration of the upload loop either leaves the record list and the
counter unchanged, or (only when `allowed_file` passed) appends exactly the one
record built at routes.py lines 142-152 and increments the counter. -/
lemma processOne_cases (env : Env) (st : BatchState) (fe : UploadedFile × Entropy) :
    ((processOne env st fe).files = st.files ∧
     (processOne env st fe).uploaded_count = st.uploaded_count) ∨
    (∃ rawExt, lastExt fe.1.filename = some rawExt ∧
      allowed_file fe.1.filename = true ∧
      (processOne env st fe).files =
        st.files ++ [mkRecord env fe.2 fe.1 (fileTypeOfExt rawExt) (lowerStr rawExt)
          (fe.2.hex8 ++ "_" ++ env.sanitize fe.1.filename)
          (storedPath env (fileTypeOfExt rawExt)
            (fe.2.hex8 ++ "_" ++ env.sanitize fe.1.filename))
          fe.1.content.length] ∧
      (processOne env st fe).uploaded_count = st.uploaded_count + 1) := by
  unfold processOne
  dsimp only
  split
  · exact Or.inl ⟨rfl, rfl⟩
  next h1 =>
    split
    · exact Or.inl ⟨rfl, rfl⟩
    next h2 =>
      split
      · exact Or.inl ⟨rfl, rfl⟩
      next rawExt hle =>
        split
        · exact Or.inl ⟨rfl, rfl⟩
        · exact Or.inr ⟨rawExt, hle, by simpa using h2, rfl, rfl⟩

/-! ### C10: the unknown category is unreachable -/

/-- C10: a filename accepted by the extension allow-list is categorized by
`get_file_type` as `pdf`, `excel` or `docx` (never `unknown`), and hence every
record the upload loop creates has its `file_type` in that set. -/
theorem get_file_type_never_unknown :
    (∀ fn, allowed_file fn = true →
      get_file_type fn = some "pdf" ∨ get_file_type fn = some "excel" ∨
        get_file_type fn = some "docx") ∧
    (∀ (env : Env) (ps : List (UploadedFile × Entropy)) (st : BatchState)
        (r : FileRecord), r ∈ (ps.foldl (processOne env) st).files →
      r ∈ st.files ∨ r.file_type = "pdf" ∨ r.file_type = "excel" ∨
        r.file_type = "docx") := by
  constructor
  · intro fn h
    obtain ⟨e, hle, _, hty⟩ := get_file_type_of_allowed h
    unfold get_file_type
    rw [hle]
    rcases hty with h | h | h <;> simp [h]
  · intro env ps
    induction ps with
    | nil => intro st r hr; exact Or.inl hr
    | cons p rest ih =>
      intro st r hr
      rw [List.foldl_cons] at hr
      rcases ih (processOne env st p) r hr with h | h
      · rcases processOne_cases env st p with ⟨hf, _⟩ | ⟨rawExt, hle, hal, hf, _⟩
        · rw [hf] at h
          exact Or.inl h
        · rw [hf] at h
          rcases List.mem_append.mp h with h | h
          · exact Or.inl h
          · obtain ⟨e, hle', _, hty⟩ := get_file_type_of_allowed hal
            rw [hle] at hle'
            cases hle'
            rw [List.mem_singleton.mp h]
            exact Or.inr hty
      · exact Or.inr h

/-- Witness for C10: `report.pdf` passes the allow-list and is categorized
`pdf`; and the record created from an `a.pdf` upload carries a known type. -/
theorem get_file_type_never_unknown_witness :
    (get_file_type "report.pdf" = some "pdf" ∨
     get_file_type "report.pdf" = some "excel" ∨
     get_file_type "report.pdf" = some "docx") ∧
    (recA ∈ ([] : List FileRecord) ∨ recA.file_type = "pdf" ∨
     recA.file_type = "excel" ∨ recA.file_type = "docx") :=
  ⟨get_file_type_never_unknown.1 "report.pdf" (by decide),
   get_file_type_never_unknown.2 envW [(⟨"a.pdf", [80]⟩, entW)] ⟨[], [], 0, []⟩
     recA (by decide)⟩

/-! ### Filesystem lemmas -/

lemma fsLookup_fsRemove_self (fs : FS) (p : String) :
    fsLookup (fsRemove fs p) p = none := by
  induction fs with
  | nil => rfl
  | cons e rest ih =>
    unfold fsRemove fsLookup at *
    rw [List.filter_cons]
    cases h : (e.1 == p) <;> simp [h, List.find?_cons, ih]

lemma fsLookup_fsRemove_other (fs : FS) {p q : String} (h : q ≠ p) :
    fsLookup (fsRemove fs p) q = fsLookup fs q := by
  induction fs with
  | nil => rfl
  | cons e rest ih =>
    unfold fsRemove fsLookup at *
    rw [List.filter_cons]
    cases hp : (e.1 == p) with
    | true =>
      have hq : (e.1 == q) = false :=
        beq_eq_false_iff_ne.mpr (fun hqe => h (hqe ▸ eq_of_beq hp))
      simp only [Bool.not_true, if_false, List.find?_cons, hq]
      exact ih
    | false =>
      simp only [Bool.not_false, if_true, List.find?_cons]
      cases hq : (e.1 == q) with
      | true => rfl
      | false => exact ih

lemma fsRemove_fsWrite (fs : FS) (p : String) (c : List Nat) :
    fsRemove (fsWrite fs p c) p = fsRemove fs p := by
  unfold fsRemove fsWrite
  rw [List.filter_cons]
  simp [List.filter_filter]

/-! ### C2: MIME mismatch rejection -/

/-- C2: when the extension passed the allow-list but the detector succeeds with
a MIME type outside the allow-list of the file's category, the iteration
appends the per-file error "File content doesn't match extension", adds no
record, leaves the counter alone, leaves no blob at the just-written path, and
leaves every other path of the disk untouched. -/
theorem content_mismatch_rejected (env : Env) (st : BatchState)
    (f : UploadedFile) (e : Entropy) (rawExt m : String)
    (hal : allowed_file f.filename = true)
    (hle : lastExt f.filename = some rawExt)
    (hdet : env.detect f.content = Except.ok m)
    (hmime : m ∉ expected_mimes (fileTypeOfExt rawExt)) :
    (processOne env st (f, e)).files = st.files ∧
    (processOne env st (f, e)).uploaded_count = st.uploaded_count ∧
    (processOne env st (f, e)).upload_errors =
      st.upload_errors ++ [f.filename ++ ": File content doesn't match extension"] ∧
    fsLookup (processOne env st (f, e)).fs
      (storedPath env (fileTypeOfExt rawExt)
        (e.hex8 ++ "_" ++ env.sanitize f.filename)) = none ∧
    ∀ q, q ≠ storedPath env (fileTypeOfExt rawExt)
        (e.hex8 ++ "_" ++ env.sanitize f.filename) →
      fsLookup (processOne env st (f, e)).fs q = fsLookup st.fs q := by
  have hne : f.filename ≠ "" := by
    intro h
    rw [h] at hal
    exact absurd hal (by decide)
  have hval : validate_file_content env.detect f.content (fileTypeOfExt rawExt) = false := by
    unfold validate_file_content
    rw [hdet]
    exact decide_eq_false hmime
  unfold processOne
  dsimp only
  rw [if_neg hne, if_neg (by simp [hal]), hle]
  dsimp only
  rw [if_pos (by simp [hval])]
  refine ⟨rfl, rfl, rfl, fsLookup_fsRemove_self _ _, fun q hq => ?_⟩
  dsimp only
  rw [fsRemove_fsWrite, fsLookup_fsRemove_other _ hq]

/-- Witness for C2: a `fake.pdf` whose bytes sniff as `text/plain` is rejected,
its blob is gone, and an unrelated path is untouched. -/
theorem content_mismatch_rejected_witness :
    (processOne envW ⟨[], [], 0, []⟩ (⟨"fake.pdf", [84]⟩, entW)).files = [] ∧
    (processOne envW ⟨[], [], 0, []⟩ (⟨"fake.pdf", [84]⟩, entW)).uploaded_count = 0 ∧
    (processOne envW ⟨[], [], 0, []⟩ (⟨"fake.pdf", [84]⟩, entW)).upload_errors =
      [] ++ ["fake.pdf" ++ ": File content doesn't match extension"] ∧
    fsLookup (processOne envW ⟨[], [], 0, []⟩ (⟨"fake.pdf", [84]⟩, entW)).fs
      (storedPath envW (fileTypeOfExt "pdf")
        (entW.hex8 ++ "_" ++ envW.sanitize "fake.pdf")) = none ∧
    fsLookup (processOne envW ⟨[], [], 0, []⟩ (⟨"fake.pdf", [84]⟩, entW)).fs
      "uploads/pdf/other" = fsLookup ([] : FS) "uploads/pdf/other" := by
  have h := content_mismatch_rejected envW ⟨[], [], 0, []⟩ ⟨"fake.pdf", [84]⟩
    entW "pdf" "text/plain" (by decide) (by decide) rfl (by decide)
  exact ⟨h.1, h.2.1, h.2.2.1, h.2.2.2.1, h.2.2.2.2 "uploads/pdf/other" (by decide)⟩

/-! ### C3: detector failure is fail-open -/

/-- C3: when the extension passed the allow-list and the content-type detector
itself raises, `validate_file_content` returns `True` (fail-open) and the
iteration creates the record: it is appended, the counter is incremented, and
no per-file error is recorded. -/
theorem detector_error_fail_open (env : Env) (st : BatchState)
    (f : UploadedFile) (e : Entropy) (rawExt : String)
    (hal : allowed_file f.filename = true)
    (hle : lastExt f.filename = some rawExt)
    (hdet : env.detect f.content = Except.error ()) :
    validate_file_content env.detect f.content (fileTypeOfExt rawExt) = true ∧
    (processOne env st (f, e)).files = st.files ++
      [mkRecord env e f (fileTypeOfExt rawExt) (lowerStr rawExt)
        (e.hex8 ++ "_" ++ env.sanitize f.filename)
        (storedPath env (fileTypeOfExt rawExt)
          (e.hex8 ++ "_" ++ env.sanitize f.filename))
        f.content.length] ∧
    (processOne env st (f, e)).uploaded_count = st.uploaded_count + 1 ∧
    (processOne env st (f, e)).upload_errors = st.upload_errors := by
  have hne : f.filename ≠ "" := by
    intro h
    rw [h] at hal
    exact absurd hal (by decide)
  have hval : validate_file_content env.detect f.content (fileTypeOfExt rawExt) = true := by
    unfold validate_file_content
    rw [hdet]
  unfold processOne
  dsimp only
  rw [if_neg hne, if_neg (by simp [hal]), hle]
  dsimp only
  rw [if_neg (by simp [hval])]
  exact ⟨hval, rfl, rfl, rfl⟩

/-- Witness for C3: bytes `[99]` make the detector of `envW` raise; the upload
of `report.pdf` with those bytes nevertheless creates its record. -/
theorem detector_error_fail_open_witness :
    validate_file_content envW.detect [99] (fileTypeOfExt "pdf") = true ∧
    (processOne envW ⟨[], [], 0, []⟩ (⟨"report.pdf", [99]⟩, entW)).files = [] ++
      [mkRecord envW entW ⟨"report.pdf", [99]⟩ (fileTypeOfExt "pdf") (lowerStr "pdf")
        (entW.hex8 ++ "_" ++ envW.sanitize "report.pdf")
        (storedPath envW (fileTypeOfExt "pdf")
          (entW.hex8 ++ "_" ++ envW.sanitize "report.pdf"))
        ([99] : List Nat).length] ∧
    (processOne envW ⟨[], [], 0, []⟩ (⟨"report.pdf", [99]⟩, entW)).uploaded_count = 0 + 1 ∧
    (processOne envW ⟨[], [], 0, []⟩ (⟨"report.pdf", [99]⟩, entW)).upload_errors = [] :=
  detector_error_fail_open envW ⟨[], [], 0, []⟩ ⟨"report.pdf", [99]⟩ entW "pdf"
    (by decide) (by decide) rfl

/-! ### C8: extension allow-list rejection -/

/-- Counterexample to C8 as stated: in the batch `[a.pdf, ""]` the second
file's filename `""` has no extension (`allowed_file "" = false`), yet the loop
skips it silently — the response carries an empty error list and no
"Invalid file type" error is reported for it (routes.py line 109 guards the
whole body with `file.filename != ''`). -/
theorem invalid_file_type_counterexample :
    allowed_file "" = false ∧
    (upload envW oracleW [⟨"a.pdf", [80]⟩, ⟨"", []⟩] [] []).response =
      UploadResponse.success "Successfully uploaded 1 file(s)" 1 [] ∧
    (upload envW oracleW [⟨"a.pdf", [80]⟩, ⟨"", []⟩] [] []).files.length = 1 := by
  exact ⟨by decide, by decide, by decide⟩

/-- C8 (amended): for every uploaded file with a nonempty filename that fails
the extension allow-list (no extension, or an extension outside
{pdf, xlsx, xls, docx} case-insensitively), the iteration appends the per-file
error "Invalid file type", adds no record, touches no disk state, and the loop
continues with the remaining files of the batch. -/
theorem invalid_file_type_rejected (env : Env) (st : BatchState)
    (f : UploadedFile) (e : Entropy) (ps : List (UploadedFile × Entropy))
    (hne : f.filename ≠ "")
    (hnal : allowed_file f.filename = false) :
    (processOne env st (f, e)).files = st.files ∧
    (processOne env st (f, e)).uploaded_count = st.uploaded_count ∧
    (processOne env st (f, e)).fs = st.fs ∧
    (processOne env st (f, e)).upload_errors =
      st.upload_errors ++ [f.filename ++ ": Invalid file type"] ∧
    ((f, e) :: ps).foldl (processOne env) st =
      ps.foldl (processOne env) (processOne env st (f, e)) := by
  have h2 : ¬ (allowed_file f.filename = true) := by simp [hnal]
  have hstep : processOne env st (f, e) =
      { st with upload_errors := st.upload_errors ++ [f.filename ++ ": Invalid file type"] } := by
    unfold processOne
    dsimp only
    rw [if_neg hne, if_pos h2]
  exact ⟨by rw [hstep], by rw [hstep], by rw [hstep], by rw [hstep], rfl⟩

/-- Witness for C8 (amended): `notes.txt` is rejected with
"Invalid file type" and nothing else changes. -/
theorem invalid_file_type_rejected_witness :
    (processOne envW ⟨[], [], 0, []⟩ (⟨"notes.txt", [84]⟩, entW)).files = [] ∧
    (processOne envW ⟨[], [], 0, []⟩ (⟨"notes.txt", [84]⟩, entW)).uploaded_count = 0 ∧
    (processOne envW ⟨[], [], 0, []⟩ (⟨"notes.txt", [84]⟩, entW)).fs = [] ∧
    (processOne envW ⟨[], [], 0, []⟩ (⟨"notes.txt", [84]⟩, entW)).upload_errors =
      [] ++ ["notes.txt" ++ ": Invalid file type"] ∧
    ([(⟨"notes.txt", [84]⟩, entW)] : List (UploadedFile × Entropy)).foldl
        (processOne envW) ⟨[], [], 0, []⟩ =
      ([] : List (UploadedFile × Entropy)).foldl (processOne envW)
        (processOne envW ⟨[], [], 0, []⟩ (⟨"notes.txt", [84]⟩, entW)) :=
  invalid_file_type_rejected envW ⟨[], [], 0, []⟩ ⟨"notes.txt", [84]⟩ entW []
    (by decide) (by decide)

/-! ### C5: delete of an absent id -/

lemma removeFirstById_none {store : List FileRecord} {fid : String}
    (h : fid ∉ store.map FileRecord.id) : removeFirstById store fid = none := by
  induction store with
  | nil => rfl
  | cons r rs ih =>
    simp only [List.map_cons, List.mem_cons, not_or] at h
    unfold removeFirstById
    rw [if_neg (fun he => h.1 he.symm), ih h.2]
    rfl

lemma removeFirstById_some {store : List FileRecord} {fid : String}
    {t : FileRecord} {rest : List FileRecord}
    (hnd : (store.map FileRecord.id).Nodup)
    (h : removeFirstById store fid = some (t, rest)) :
    fid ∉ rest.map FileRecord.id := by
  induction store generalizing t rest with
  | nil => cases h
  | cons r rs ih =>
    simp only [List.map_cons, List.nodup_cons] at hnd
    unfold removeFirstById at h
    by_cases he : r.id = fid
    · rw [if_pos he] at h
      cases h
      exact fun hmem => hnd.1 (he ▸ hmem)
    · rw [if_neg he] at h
      cases hrec : removeFirstById rs fid with
      | none => rw [hrec] at h; cases h
      | some p =>
        obtain ⟨p1, p2⟩ := p
        rw [hrec] at h
        cases h
        have hih := ih hnd.2 hrec
        simp only [List.map_cons, List.mem_cons, not_or]
        exact ⟨fun hf => he hf.symm, hih⟩

/-- C5: deleting an id that is not in the store reports "File not found" and
mutates neither the store nor the disk; consequently (on a store whose ids are
pairwise distinct, the invariant of C7) deleting the same id twice makes the
second call report not-found with store and disk unchanged and nothing
persisted. -/
theorem delete_not_found_idempotent (store : List FileRecord) (fs0 : FS)
    (fid : String) :
    (fid ∉ store.map FileRecord.id →
      delete_file fid store fs0 = ⟨"error", "File not found", 404, store, fs0, 0⟩) ∧
    ((store.map FileRecord.id).Nodup →
      (delete_file fid (delete_file fid store fs0).files
          (delete_file fid store fs0).fs).status = "error" ∧
      (delete_file fid (delete_file fid store fs0).files
          (delete_file fid store fs0).fs).message = "File not found" ∧
      (delete_file fid (delete_file fid store fs0).files
          (delete_file fid store fs0).fs).files = (delete_file fid store fs0).files ∧
      (delete_file fid (delete_file fid store fs0).files
          (delete_file fid store fs0).fs).fs = (delete_file fid store fs0).fs ∧
      (delete_file fid (delete_file fid store fs0).files
          (delete_file fid store fs0).fs).saveCount = 0) := by
  constructor
  · intro h
    unfold delete_file
    rw [removeFirstById_none h]
  · intro hnd
    cases hrem : removeFirstById store fid with
    | none =>
      have h1 : delete_file fid store fs0 = ⟨"error", "File not found", 404, store, fs0, 0⟩ := by
        unfold delete_file
        rw [hrem]
      rw [h1]
      dsimp only
      rw [h1]
      exact ⟨rfl, rfl, rfl, rfl, rfl⟩
    | some p =>
      obtain ⟨t, rest⟩ := p
      have h1 : delete_file fid store fs0 =
          ⟨"success", "File '" ++ t.original_name ++ "' deleted successfully", 200,
           rest, fsRemove fs0 t.stored_path, 1⟩ := by
        unfold delete_file
        rw [hrem]
      have h2 : removeFirstById rest fid = none :=
        removeFirstById_none (removeFirstById_some hnd hrem)
      rw [h1]
      dsimp only
      unfold delete_file
      rw [h2]
      exact ⟨rfl, rfl, rfl, rfl, rfl⟩

/-- Witness for C5: deleting `zzz` from the empty store reports not-found
unchanged, and deleting `uuid-one` twice from the one-record store makes the
second call report not-found with everything unchanged. -/
theorem delete_not_found_idempotent_witness :
    delete_file "zzz" [] [] = ⟨"error", "File not found", 404, [], [], 0⟩ ∧
    ((delete_file "uuid-one" (delete_file "uuid-one" [recW] []).files
        (delete_file "uuid-one" [recW] []).fs).status = "error" ∧
     (delete_file "uuid-one" (delete_file "uuid-one" [recW] []).files
        (delete_file "uuid-one" [recW] []).fs).message = "File not found" ∧
     (delete_file "uuid-one" (delete_file "uuid-one" [recW] []).files
        (delete_file "uuid-one" [recW] []).fs).files =
       (delete_file "uuid-one" [recW] []).files ∧
     (delete_file "uuid-one" (delete_file "uuid-one" [recW] []).files
        (delete_file "uuid-one" [recW] []).fs).fs =
       (delete_file "uuid-one" [recW] []).fs ∧
     (delete_file "uuid-one" (delete_file "uuid-one" [recW] []).files
        (delete_file "uuid-one" [recW] []).fs).saveCount = 0) :=
  ⟨(delete_not_found_idempotent [] [] "zzz").1 (by decide),
   (delete_not_found_idempotent [recW] [] "uuid-one").2 (by decide)⟩

/-! ### C6: listing order -/

/-- C6: the listing is sorted by `upload_date` descending, and it is stable:
for every date, the records carrying that date appear in exactly their
original (insertion) order. -/
theorem files_sorted_stable (store : List FileRecord) :
    (files store).Pairwise (fun a b => b.upload_date ≤ a.upload_date) ∧
    ∀ d : String,
      (files store).filter (fun r => decide (r.upload_date = d)) =
        store.filter (fun r => decide (r.upload_date = d)) := by
  have htrans : ∀ a b c : FileRecord,
      decide (b.upload_date ≤ a.upload_date) = true →
      decide (c.upload_date ≤ b.upload_date) = true →
      decide (c.upload_date ≤ a.upload_date) = true := by
    intro a b c h1 h2
    rw [decide_eq_true_iff] at h1 h2 ⊢
    exact le_trans h2 h1
  have htotal : ∀ a b : FileRecord,
      (decide (b.upload_date ≤ a.upload_date) ||
        decide (a.upload_date ≤ b.upload_date)) = true := by
    intro a b
    rcases le_total b.upload_date a.upload_date with h | h <;> simp [h]
  constructor
  · have h := List.sorted_mergeSort htrans htotal store
    exact h.imp (fun hab => decide_eq_true_iff.mp hab)
  · intro d
    have hsub : List.Sublist (store.filter (fun r => decide (r.upload_date = d)))
        (files store) := by
      apply List.sublist_mergeSort htrans htotal
      · apply List.pairwise_of_forall_mem_list
        intro a ha b hb
        have ha' : a.upload_date = d :=
          decide_eq_true_iff.mp (List.mem_filter.mp ha).2
        have hb' : b.upload_date = d :=
          decide_eq_true_iff.mp (List.mem_filter.mp hb).2
        exact decide_eq_true (by rw [ha', hb'])
      · exact List.filter_sublist store
    have hperm : List.Perm ((files store).filter (fun r => decide (r.upload_date = d)))
        (store.filter (fun r => decide (r.upload_date = d))) :=
      (List.mergeSort_perm store _).filter _
    have hself : (store.filter (fun r => decide (r.upload_date = d))).filter
        (fun r => decide (r.upload_date = d)) =
        store.filter (fun r => decide (r.upload_date = d)) := by
      rw [List.filter_eq_self]
      intro a ha
      exact (List.mem_filter.mp ha).2
    have hsub2 : List.Sublist (store.filter (fun r => decide (r.upload_date = d)))
        ((files store).filter (fun r => decide (r.upload_date = d))) := by
      rw [← hself]
      exact hsub.filter _
    exact (hsub2.eq_of_length hperm.length_eq.symm).symm

/-! ### C4: batch save and response -/

/-- Along the upload loop, the record list grows by exactly the number of
counted successes. -/
lemma processFiles_length (env : Env) (ps : List (UploadedFile × Entropy))
    (st : BatchState) :
    (ps.foldl (processOne env) st).files.length + st.uploaded_count =
      st.files.length + (ps.foldl (processOne env) st).uploaded_count := by
  induction ps generalizing st with
  | nil => simp [Nat.add_comm]
  | cons p rest ih =>
    rw [List.foldl_cons]
    have h := ih (processOne env st p)
    rcases processOne_cases env st p with ⟨hf, hc⟩ | ⟨_, _, _, hf, hc⟩
    · rw [hf, hc] at h
      exact h
    · rw [hf, hc] at h
      simp only [List.length_append, List.length_singleton] at h
      omega

/-- The loop counter never decreases. -/
lemma processFiles_count_mono (env : Env) (ps : List (UploadedFile × Entropy))
    (st : BatchState) :
    st.uploaded_count ≤ (ps.foldl (processOne env) st).uploaded_count := by
  induction ps generalizing st with
  | nil => exact Nat.le_refl _
  | cons p rest ih =>
    rw [List.foldl_cons]
    refine Nat.le_trans ?_ (ih (processOne env st p))
    rcases processOne_cases env st p with ⟨_, hc⟩ | ⟨_, _, _, _, hc⟩ <;> omega

/-- If the loop counted no success, it appended no record. -/
lemma processFiles_files_of_count_eq (env : Env) (ps : List (UploadedFile × Entropy))
    (st : BatchState)
    (h : (ps.foldl (processOne env) st).uploaded_count = st.uploaded_count) :
    (ps.foldl (processOne env) st).files = st.files := by
  induction ps generalizing st with
  | nil => rfl
  | cons p rest ih =>
    rw [List.foldl_cons] at h ⊢
    rcases processOne_cases env st p with ⟨hf, hc⟩ | ⟨_, _, _, _, hc⟩
    · rw [ih (processOne env st p) (by rw [h, hc]), hf]
    · have := processFiles_count_mono env rest (processOne env st p)
      rw [hc] at this
      omega

/-- `uploadLoop` grows the store by exactly its success count. -/
lemma uploadLoop_length (env : Env) (oracle : Nat → Entropy)
    (batch : List UploadedFile) (store : List FileRecord) (fs0 : FS) :
    (uploadLoop env oracle batch store fs0).files.length =
      store.length + (uploadLoop env oracle batch store fs0).uploaded_count := by
  have h := processFiles_length env
    (batch.zip ((List.range batch.length).map oracle)) ⟨store, fs0, 0, []⟩
  simpa [uploadLoop] using h

/-- With zero successes `uploadLoop` leaves the store unchanged. -/
lemma uploadLoop_files_of_zero (env : Env) (oracle : Nat → Entropy)
    (batch : List UploadedFile) (store : List FileRecord) (fs0 : FS)
    (h : (uploadLoop env oracle batch store fs0).uploaded_count = 0) :
    (uploadLoop env oracle batch store fs0).files = store :=
  processFiles_files_of_count_eq env _ ⟨store, fs0, 0, []⟩ (by simpa [uploadLoop] using h)

/-- C4: for a batch that passes the initial guard, if at least one file
succeeded the store is persisted exactly once, the persisted store is the
initial one grown by exactly the success count, and the response reports
success with the count and the per-file error list; if zero files succeeded,
nothing is persisted, the store is unchanged, and the response reports a batch
failure carrying the per-file errors. -/
theorem upload_batch_save_response (env : Env) (oracle : Nat → Entropy)
    (batch : List UploadedFile) (store : List FileRecord) (fs0 : FS)
    (hguard : ¬(batch = [] ∨ (batch.head?.map UploadedFile.filename) = some "")) :
    (0 < (uploadLoop env oracle batch store fs0).uploaded_count →
      (upload env oracle batch store fs0).saveCount = 1 ∧
      (upload env oracle batch store fs0).files =
        (uploadLoop env oracle batch store fs0).files ∧
      (upload env oracle batch store fs0).files.length =
        store.length + (uploadLoop env oracle batch store fs0).uploaded_count ∧
      (upload env oracle batch store fs0).response = UploadResponse.success
        (if (uploadLoop env oracle batch store fs0).upload_errors ≠ [] then
          "Successfully uploaded " ++
            toString (uploadLoop env oracle batch store fs0).uploaded_count ++
            " file(s)" ++ ". " ++
            toString (uploadLoop env oracle batch store fs0).upload_errors.length ++
            " file(s) failed."
        else
          "Successfully uploaded " ++
            toString (uploadLoop env oracle batch store fs0).uploaded_count ++
            " file(s)")
        (uploadLoop env oracle batch store fs0).uploaded_count
        (uploadLoop env oracle batch store fs0).upload_errors) ∧
    ((uploadLoop env oracle batch store fs0).uploaded_count = 0 →
      (upload env oracle batch store fs0).saveCount = 0 ∧
      (upload env oracle batch store fs0).files = store ∧
      (upload env oracle batch store fs0).response = UploadResponse.failure
        "No files were uploaded successfully"
        (some (uploadLoop env oracle batch store fs0).upload_errors) 400) := by
  constructor
  · intro hpos
    have hlen := uploadLoop_length env oracle batch store fs0
    unfold upload
    rw [if_neg hguard]
    dsimp only
    refine ⟨?_, ?_, ?_, ?_⟩ <;> simp only [if_pos hpos]
    exact hlen
  · intro hzero
    have hfiles := uploadLoop_files_of_zero env oracle batch store fs0 hzero
    unfold upload
    rw [if_neg hguard]
    dsimp only
    refine ⟨?_, ?_, ?_⟩ <;>
      simp only [if_neg (by omega : ¬ 0 < (uploadLoop env oracle batch store fs0).uploaded_count)]
    exact hfiles

/-- Witness for C4, success side: one good `a.pdf` gives one save and a success
response; failure side: a single mismatching `fake.pdf` gives no save, an
unchanged store and a failure response carrying the per-file error. -/
theorem upload_batch_save_response_witness :
    ((upload envW oracleW [⟨"a.pdf", [80]⟩] [] []).saveCount = 1 ∧
     (upload envW oracleW [⟨"a.pdf", [80]⟩] [] []).files =
       (uploadLoop envW oracleW [⟨"a.pdf", [80]⟩] [] []).files ∧
     (upload envW oracleW [⟨"a.pdf", [80]⟩] [] []).files.length =
       ([] : List FileRecord).length +
         (uploadLoop envW oracleW [⟨"a.pdf", [80]⟩] [] []).uploaded_count ∧
     (upload envW oracleW [⟨"a.pdf", [80]⟩] [] []).response = UploadResponse.success
       (if (uploadLoop envW oracleW [⟨"a.pdf", [80]⟩] [] []).upload_errors ≠ [] then
         "Successfully uploaded " ++
           toString (uploadLoop envW oracleW [⟨"a.pdf", [80]⟩] [] []).uploaded_count ++
           " file(s)" ++ ". " ++
           toString (uploadLoop envW oracleW [⟨"a.pdf", [80]⟩] [] []).upload_errors.length ++
           " file(s) failed."
       else
         "Successfully uploaded " ++
           toString (uploadLoop envW oracleW [⟨"a.pdf", [80]⟩] [] []).uploaded_count ++
           " file(s)")
       (uploadLoop envW oracleW [⟨"a.pdf", [80]⟩] [] []).uploaded_count
       (uploadLoop envW oracleW [⟨"a.pdf", [80]⟩] [] []).upload_errors) ∧
    ((upload envW oracleW [⟨"fake.pdf", [84]⟩] [] []).saveCount = 0 ∧
     (upload envW oracleW [⟨"fake.pdf", [84]⟩] [] []).files = [] ∧
     (upload envW oracleW [⟨"fake.pdf", [84]⟩] [] []).response = UploadResponse.failure
       "No files were uploaded successfully"
       (some (uploadLoop envW oracleW [⟨"fake.pdf", [84]⟩] [] []).upload_errors) 400) :=
  ⟨(upload_batch_save_response envW oracleW [⟨"a.pdf", [80]⟩] [] []
      (by decide)).1 (by decide),
   (upload_batch_save_response envW oracleW [⟨"fake.pdf", [84]⟩] [] []
      (by decide)).2 (by decide)⟩

/-! ### C7: uniqueness of ids and stored names -/

/-- The upload loop appends a batch of new records whose ids come one-for-one
from the consumed `uuid4` strings and whose stored names come one-for-one from
the consumed hex prefixes, in order (sublists, since rejected files consume
nothing). -/
lemma processFiles_new (env : Env) (ps : List (UploadedFile × Entropy))
    (st : BatchState) :
    ∃ new : List FileRecord,
      (ps.foldl (processOne env) st).files = st.files ++ new ∧
      List.Sublist (new.map FileRecord.id) (ps.map (fun p => p.2.uuidStr)) ∧
      List.Sublist (new.map FileRecord.stored_name)
        (ps.map (fun p => p.2.hex8 ++ "_" ++ env.sanitize p.1.filename)) := by
  induction ps generalizing st with
  | nil => exact ⟨[], by simp, List.nil_sublist _, List.nil_sublist _⟩
  | cons p rest ih =>
    obtain ⟨new, h1, h2, h3⟩ := ih (processOne env st p)
    rcases processOne_cases env st p with ⟨hfl, _⟩ | ⟨rawExt, hle, hal, hfl, _⟩
    · refine ⟨new, ?_, ?_, ?_⟩
      · rw [List.foldl_cons, h1, hfl]
      · rw [List.map_cons]
        exact List.Sublist.cons _ h2
      · rw [List.map_cons]
        exact List.Sublist.cons _ h3
    · refine ⟨mkRecord env p.2 p.1 (fileTypeOfExt rawExt) (lowerStr rawExt)
        (p.2.hex8 ++ "_" ++ env.sanitize p.1.filename)
        (storedPath env (fileTypeOfExt rawExt)
          (p.2.hex8 ++ "_" ++ env.sanitize p.1.filename))
        p.1.content.length :: new, ?_, ?_, ?_⟩
      · rw [List.foldl_cons, h1, hfl, List.append_assoc]
        rfl
      · rw [List.map_cons, List.map_cons]
        exact List.Sublist.cons₂ _ h2
      · rw [List.map_cons, List.map_cons]
        exact List.Sublist.cons₂ _ h3

/-- The `files` field of an upload result is either the loop result or the
untouched initial store (when the guard rejects the batch). -/
lemma upload_files_cases (env : Env) (oracle : Nat → Entropy)
    (batch : List UploadedFile) (store : List FileRecord) (fs0 : FS) :
    (upload env oracle batch store fs0).files =
      (uploadLoop env oracle batch store fs0).files ∨
    (upload env oracle batch store fs0).files = store := by
  unfold upload
  by_cases hg : (batch = [] ∨ (batch.head?.map (·.filename)) = some "")
  · rw [if_pos hg]
    exact Or.inr rfl
  · rw [if_neg hg]
    dsimp only
    by_cases hc : 0 < (uploadLoop env oracle batch store fs0).uploaded_count
    · left
      simp only [if_pos hc]
    · left
      simp only [if_neg hc]

/-- One POST /upload grows the store by records whose ids are a sublist of the
consumed `uuid4` strings and whose stored names are a sublist of the candidate
names built from the consumed hex prefixes. -/
lemma upload_new (env : Env) (oracle : Nat → Entropy) (batch : List UploadedFile)
    (store : List FileRecord) (fs0 : FS) :
    ∃ new, (upload env oracle batch store fs0).files = store ++ new ∧
      List.Sublist (new.map FileRecord.id)
        ((entsUsed batch oracle).map Entropy.uuidStr) ∧
      List.Sublist (new.map FileRecord.stored_name)
        ((batch.zip (entsUsed batch oracle)).map
          (fun p => p.2.hex8 ++ "_" ++ env.sanitize p.1.filename)) := by
  rcases upload_files_cases env oracle batch store fs0 with hf | hf
  · obtain ⟨new, h1, h2, h3⟩ :=
      processFiles_new env (batch.zip (entsUsed batch oracle)) ⟨store, fs0, 0, []⟩
    refine ⟨new, ?_, ?_, h3⟩
    · rw [hf]
      exact h1
    · have hsnd : (batch.zip (entsUsed batch oracle)).map Prod.snd =
          entsUsed batch oracle :=
        List.map_snd_zip _ _ (by simp [entsUsed])
      rw [← hsnd, List.map_map]
      exact h2
  · exact ⟨[], by rw [hf, List.append_nil], List.nil_sublist _, List.nil_sublist _⟩

lemma allZipPairs_map_snd (runs : List (List UploadedFile × (Nat → Entropy))) :
    (allZipPairs runs).map Prod.snd = allEnts runs := by
  induction runs with
  | nil => rfl
  | cons br rest ih =>
    obtain ⟨batch, oracle⟩ := br
    have hz : (batch.zip (entsUsed batch oracle)).map Prod.snd = entsUsed batch oracle :=
      List.map_snd_zip _ _ (by simp [entsUsed])
    rw [show allZipPairs ((batch, oracle) :: rest) =
        batch.zip (entsUsed batch oracle) ++ allZipPairs rest from by
          simp [allZipPairs, List.flatMap_cons],
      show allEnts ((batch, oracle) :: rest) = entsUsed batch oracle ++ allEnts rest from by
          simp [allEnts, List.flatMap_cons],
      List.map_append, hz, ih]

/-- Across a whole request sequence, the new records' ids are a sublist of all
consumed `uuid4` strings and the new stored names a sublist of all candidate
names. -/
lemma runUploads_new (env : Env) (runs : List (List UploadedFile × (Nat → Entropy)))
    (store : List FileRecord) (fs0 : FS) :
    ∃ new, (runUploads env runs store fs0).1 = store ++ new ∧
      List.Sublist (new.map FileRecord.id) ((allEnts runs).map Entropy.uuidStr) ∧
      List.Sublist (new.map FileRecord.stored_name)
        ((allZipPairs runs).map
          (fun p => p.2.hex8 ++ "_" ++ env.sanitize p.1.filename)) := by
  induction runs generalizing store fs0 with
  | nil => exact ⟨[], by simp [runUploads], List.nil_sublist _, List.nil_sublist _⟩
  | cons br rest ih =>
    obtain ⟨batch, oracle⟩ := br
    obtain ⟨n1, h1, hi1, hn1⟩ := upload_new env oracle batch store fs0
    obtain ⟨n2, h2, hi2, hn2⟩ :=
      ih (upload env oracle batch store fs0).files (upload env oracle batch store fs0).fs
    refine ⟨n1 ++ n2, ?_, ?_, ?_⟩
    · simp only [runUploads]
      rw [h2, h1, List.append_assoc]
    · rw [List.map_append,
        show allEnts ((batch, oracle) :: rest) = entsUsed batch oracle ++ allEnts rest from by
          simp [allEnts, List.flatMap_cons],
        List.map_append]
      exact hi1.append hi2
    · rw [List.map_append,
        show allZipPairs ((batch, oracle) :: rest) =
          batch.zip (entsUsed batch oracle) ++ allZipPairs rest from by
            simp [allZipPairs, List.flatMap_cons],
        List.map_append]
      exact hn1.append hn2

/-- Two stored names agree only if their fixed-width hex prefixes do. -/
lemma hex8_append_inj {a b x y : String} (ha : a.length = 8) (hb : b.length = 8)
    (h : a ++ "_" ++ x = b ++ "_" ++ y) : a = b := by
  have hd : (a.data ++ "_".data) ++ x.data = (b.data ++ "_".data) ++ y.data := by
    have hdd := congrArg String.data h
    simpa [String.data_append] using hdd
  rw [List.append_assoc, List.append_assoc] at hd
  have hlen : a.data.length = b.data.length := by
    have ha' : a.data.length = 8 := ha
    have hb' : b.data.length = 8 := hb
    omega
  exact congrArg String.mk (List.append_inj hd hlen).1

/-- C7: starting from the empty store, after any sequence of upload requests in
which the consumed `uuid4` id strings are pairwise distinct, the consumed hex
prefixes are pairwise distinct, and every hex prefix has its fixed width 8
(`uuid.uuid4().hex[:8]`), all ids in the store are pairwise distinct and all
stored names in the store are pairwise distinct. -/
theorem upload_ids_names_unique (env : Env)
    (runs : List (List UploadedFile × (Nat → Entropy))) (fs0 : FS)
    (hid : ((allEnts runs).map Entropy.uuidStr).Nodup)
    (hhex : ((allEnts runs).map Entropy.hex8).Nodup)
    (hlen : ∀ e ∈ allEnts runs, e.hex8.length = 8) :
    ((runUploads env runs [] fs0).1.map FileRecord.id).Nodup ∧
    ((runUploads env runs [] fs0).1.map FileRecord.stored_name).Nodup := by
  obtain ⟨new, hf, hidS, hnmS⟩ := runUploads_new env runs [] fs0
  rw [hf, List.nil_append]
  constructor
  · exact hidS.nodup hid
  · have hsnd : (allZipPairs runs).map Prod.snd = allEnts runs := allZipPairs_map_snd runs
    have h1 : ((allZipPairs runs).map
        (fun p : UploadedFile × Entropy => p.2.hex8)).Nodup := by
      rw [show (fun p : UploadedFile × Entropy => p.2.hex8) =
          (Entropy.hex8 ∘ Prod.snd) from rfl, ← List.map_map, hsnd]
      exact hhex
    have h1' : ((allZipPairs runs).map
        (fun p : UploadedFile × Entropy => p.2.hex8)).Pairwise (· ≠ ·) := h1
    have hpair : (allZipPairs runs).Pairwise (fun p q => p.2.hex8 ≠ q.2.hex8) :=
      List.pairwise_map.mp h1'
    have hcand : ((allZipPairs runs).map
        (fun p => p.2.hex8 ++ "_" ++ env.sanitize p.1.filename)).Pairwise (· ≠ ·) := by
      apply List.pairwise_map.mpr
      apply hpair.imp_of_mem
      intro p q hp hq hne heq
      apply hne
      refine hex8_append_inj ?_ ?_ heq
      · exact hlen p.2 (by rw [← hsnd]; exact List.mem_map_of_mem _ hp)
      · exact hlen q.2 (by rw [← hsnd]; exact List.mem_map_of_mem _ hq)
    exact hnmS.nodup hcand

/-- Witness for C7: one request uploading `a.pdf` (valid PDF bytes) and
`b.xlsx` (detector error, fail-open) from the empty store yields two records
with distinct ids and distinct stored names. -/
theorem upload_ids_names_unique_witness :
    ((runUploads envW [([⟨"a.pdf", [80]⟩, ⟨"b.xlsx", [99]⟩], oracle8)] [] []).1.map
      FileRecord.id).Nodup ∧
    ((runUploads envW [([⟨"a.pdf", [80]⟩, ⟨"b.xlsx", [99]⟩], oracle8)] [] []).1.map
      FileRecord.stored_name).Nodup :=
  upload_ids_names_unique envW [([⟨"a.pdf", [80]⟩, ⟨"b.xlsx", [99]⟩], oracle8)] []
    (by decide) (by decide) (by decide)

end Chatbot
